import Mathlib

/-!
Verification of the protocol layer of the keremenci/http-pure-python server
(src/server.py). Byte sequences and Python text strings are both embedded as
lists of natural numbers (byte values, respectively Unicode code points); all
concrete inputs in this development are ASCII, where the two coincide. Python
dicts are embedded as ordered association lists with last-write-wins
insertion, fallible Python code as Except values.
-/

set_option maxRecDepth 40000

/-- Code points of a string literal, used to write the byte and text
sequences of the embedding. -/
def str (s : String) : List Nat :=
  s.data.map Char.toNat

/-- The CRLF line separator. -/
def crlf : List Nat := [13, 10]

/-- The blank-line delimiter separating a header block from a body. -/
def crlfcrlf : List Nat := [13, 10, 13, 10]

/-- The header key/value separator, a colon followed by a space. -/
def colonSpace : List Nat := [58, 32]

/-- Python x.split(sep, 1): the pieces before and after the first occurrence
of sep, or none when sep does not occur (the Python call then returns a
one-element list, so a two-variable unpacking of it raises ValueError). -/
def splitFirst? (sep : List Nat) : List Nat → Option (List Nat × List Nat)
  | [] => if sep.isPrefixOf ([] : List Nat) then some ([], []) else none
  | a :: t =>
    if sep.isPrefixOf (a :: t) then some ([], (a :: t).drop sep.length)
    else (splitFirst? sep t).map (fun pq => (a :: pq.1, pq.2))

/-- Python x.split(sep) without maxsplit, driven by fuel. For a nonempty sep
a fuel of xs.length is always sufficient, because each successful split
consumes at least one element of the remainder; every call site of the
source passes a nonempty separator (Python raises on an empty one). -/
def splitAllGo (sep : List Nat) : Nat → List Nat → List (List Nat)
  | 0, xs => [xs]
  | fuel + 1, xs =>
    match splitFirst? sep xs with
    | none => [xs]
    | some pq => pq.1 :: splitAllGo sep fuel pq.2

/-- Python x.split(sep) without maxsplit. -/
def splitAll (sep xs : List Nat) : List (List Nat) :=
  splitAllGo sep xs.length xs

/-- Python x.strip(c) for a one-character strip set: removes every leading
and every trailing occurrence of c, keeping interior occurrences. -/
def stripChar (c : Nat) (xs : List Nat) : List Nat :=
  ((xs.dropWhile (fun x => x == c)).reverse.dropWhile (fun x => x == c)).reverse

/-- Python bytes.decode(): strict UTF-8 decoding of a byte list into the
list of decoded code points, none on invalid UTF-8 (UnicodeDecodeError).
On pure ASCII input it is the identity. -/
def utf8Decode? : List Nat → Option (List Nat)
  | [] => some []
  | b0 :: t0 =>
    if b0 < 128 then (utf8Decode? t0).map (fun r => b0 :: r)
    else
      match t0 with
      | [] => none
      | b1 :: t1 =>
        if 194 ≤ b0 ∧ b0 ≤ 223 then
          if 128 ≤ b1 ∧ b1 ≤ 191 then
            (utf8Decode? t1).map (fun r => ((b0 - 192) * 64 + (b1 - 128)) :: r)
          else none
        else
          match t1 with
          | [] => none
          | b2 :: t2 =>
            if 224 ≤ b0 ∧ b0 ≤ 239 then
              if (128 ≤ b1 ∧ b1 ≤ 191) ∧ (128 ≤ b2 ∧ b2 ≤ 191) ∧
                  (b0 = 224 → 160 ≤ b1) ∧ (b0 = 237 → b1 ≤ 159) then
                (utf8Decode? t2).map
                  (fun r => ((b0 - 224) * 4096 + (b1 - 128) * 64 + (b2 - 128)) :: r)
              else none
            else
              match t2 with
              | [] => none
              | b3 :: t3 =>
                if 240 ≤ b0 ∧ b0 ≤ 244 then
                  if (128 ≤ b1 ∧ b1 ≤ 191) ∧ (128 ≤ b2 ∧ b2 ≤ 191) ∧
                      (128 ≤ b3 ∧ b3 ≤ 191) ∧
                      (b0 = 240 → 144 ≤ b1) ∧ (b0 = 244 → b1 ≤ 143) then
                    (utf8Decode? t3).map
                      (fun r => ((b0 - 240) * 262144 + (b1 - 128) * 4096 +
                                 (b2 - 128) * 64 + (b3 - 128)) :: r)
                  else none
                else none

/-- One Python dict assignment d[k] = v: when the key is already present its
value is updated in place (the binding keeps its position), otherwise the
new binding is appended at the end. -/
def dictInsert (d : List (List Nat × List Nat)) (k v : List Nat) :
    List (List Nat × List Nat) :=
  if d.any (fun p => p.1 == k) then
    d.map (fun p => if p.1 == k then (k, v) else p)
  else d ++ [(k, v)]

/-- A Python dict comprehension over a list of key/value pairs: later
occurrences of a key overwrite the value of earlier ones. -/
def dictOfPairs (ps : List (List Nat × List Nat)) : List (List Nat × List Nat) :=
  ps.foldl (fun d p => dictInsert d p.1 p.2) []

/-- Python d[k] as an Option: the value of the binding of k, if any. -/
def dictLookup (d : List (List Nat × List Nat)) (k : List Nat) : Option (List Nat) :=
  (d.find? (fun p => p.1 == k)).map (fun p => p.2)

/-- The failure modes of HTTPRequest.doParse and FormData.doParse, named
after the spec taxonomy. In the Python source they surface as ValueError
(a failed two-variable unpacking), StopIteration (an exhausted generator in
a bare next call), and UnicodeDecodeError. -/
inductive ParseError where
  | framingError
  | decodeError
  | malformedRequestLine
  | malformedQueryParam
  | malformedHeaderLine
  | malformedMultipart
deriving DecidableEq

/-- The parsed request: the fields assigned by HTTPRequest.doParse, with the
source field names. -/
structure HTTPRequest where
  method : List Nat
  endpoint : List Nat
  qparams : Option (List (List Nat × List Nat))
  http_version : List Nat
  headers : List (List Nat × List Nat)
  body : List Nat
deriving DecidableEq

/-- The lines of the decoded head: head.decode().split on CRLF. -/
def headLines (headText : List Nat) : List (List Nat) :=
  splitAll crlf headText

/-- The request line (the first line of the head) split on single spaces. -/
def wordsOf (headText : List Nat) : List (List Nat) :=
  splitAll [32] ((headLines headText).headD [])

/-- words[0]: the method token (a split result is never empty). -/
def methodOf (headText : List Nat) : List Nat :=
  (wordsOf headText).headD []

/-- The header lines: every line of the head after the request line. -/
def headerLines (headText : List Nat) : List (List Nat) :=
  (headLines headText).drop 1

/-- The HTTP version: the first token starting with HTTP, with its first
five characters removed, defaulting to 1.1 when no token matches. -/
def versionOf (words : List (List Nat)) : List Nat :=
  match words.find? (fun v => (str "HTTP").isPrefixOf v) with
  | some v => v.drop 5
  | none => str "1.1"

/-- Splits each element on the first occurrence of sep into a key/value
pair, failing with err on the first element lacking the separator, exactly
as the two-variable unpacking inside the dict comprehensions of the
source. -/
def pairsOf? (sep : List Nat) (err : ParseError) :
    List (List Nat) → Except ParseError (List (List Nat × List Nat))
  | [] => .ok []
  | l :: ls =>
    match splitFirst? sep l with
    | none => .error err
    | some kv => (pairsOf? sep err ls).map (fun ps => kv :: ps)

/-- The raw query pairs of the text after the question mark: split on the
ampersand, each piece split on the first equals sign. -/
def queryPairs? (rest : List Nat) : Except ParseError (List (List Nat × List Nat)) :=
  pairsOf? [61] .malformedQueryParam (splitAll [38] rest)

/-- The query-parameter dictionary built from the query pairs. -/
def queryDict? (rest : List Nat) : Except ParseError (List (List Nat × List Nat)) :=
  (queryPairs? rest).map dictOfPairs

/-- The header dictionary: each header line split on the first colon-space
into a key/value pair. -/
def headerDict? (ls : List (List Nat)) : Except ParseError (List (List Nat × List Nat)) :=
  (pairsOf? colonSpace .malformedHeaderLine ls).map dictOfPairs

/-- HTTPRequest.doParse after the head has been split off and decoded: find
the first space-separated token beginning with a slash, strip leading and
trailing slashes from that whole token, split the result on the first
question mark into endpoint and query string, extract the version, and
decode the header lines. -/
def parseHead (headText body : List Nat) : Except ParseError HTTPRequest :=
  match (wordsOf headText).find? (fun v => [47].isPrefixOf v) with
  | none => .error .malformedRequestLine
  | some w =>
    match splitFirst? [63] (stripChar 47 w) with
    | none =>
      (headerDict? (headerLines headText)).map (fun hs =>
        { method := methodOf headText, endpoint := stripChar 47 w, qparams := none,
          http_version := versionOf (wordsOf headText), headers := hs, body := body })
    | some er =>
      match queryDict? er.2 with
      | .error e => .error e
      | .ok qd =>
        (headerDict? (headerLines headText)).map (fun hs =>
          { method := methodOf headText, endpoint := er.1, qparams := some qd,
            http_version := versionOf (wordsOf headText), headers := hs, body := body })

/-- HTTPRequest.doParse: split the raw data on the first blank line into
head and body, decode the head as text, then parse the head. -/
def doParse (data : List Nat) : Except ParseError HTTPRequest :=
  match splitFirst? crlfcrlf data with
  | none => .error .framingError
  | some hb =>
    match utf8Decode? hb.1 with
    | none => .error .decodeError
    | some headText => parseHead headText hb.2

/-- The path of a request as the words of the C3 claim describe it: the
part of the URI token before any question mark, with all leading and
trailing slash characters removed. Stated from the claim, to be compared
with what doParse computes. -/
def specPath (uriToken : List Nat) : List Nat :=
  match splitFirst? [63] uriToken with
  | none => stripChar 47 uriToken
  | some pq => stripChar 47 pq.1

/-- The fields of a FormData object after doParse: both start as None and
are overwritten once per part. -/
structure FormData where
  headers : Option (List (List Nat × List Nat))
  formbody : Option (List Nat)
deriving DecidableEq

/-- The candidate parts: data.split on dash-dash-boundary, with the first
element (preamble) and the last element (closing remnant) dropped. -/
def formParts (boundary data : List Nat) : List (List Nat) :=
  ((splitAll ([45, 45] ++ boundary) data).drop 1).dropLast

/-- The multipart header pairs: each kept header line is split on every
occurrence of colon-space (the source uses no maxsplit here, unlike the
request parser) and must yield exactly a key and a value, which are then
text-decoded; any other shape is a fatal error. -/
def formHeaderPairs? : List (List Nat) → Except ParseError (List (List Nat × List Nat))
  | [] => .ok []
  | h :: t =>
    match splitAll colonSpace h with
    | [k, v] =>
      match utf8Decode? k, utf8Decode? v with
      | some kd, some vd => (formHeaderPairs? t).map (fun ps => (kd, vd) :: ps)
      | _, _ => .error .decodeError
    | _ => .error .malformedHeaderLine

/-- The multipart header dictionary of a list of header lines. -/
def formHeaderDict? (ls : List (List Nat)) : Except ParseError (List (List Nat × List Nat)) :=
  (formHeaderPairs? ls).map dictOfPairs

/-- One iteration of the FormData.doParse loop: split the part on the first
blank line into its header block and payload, and decode the header lines
skipping the first line of the header block (the boundary line remnant). -/
def parsePart? (part : List Nat) :
    Except ParseError ((List (List Nat × List Nat)) × List Nat) :=
  match splitFirst? crlfcrlf part with
  | none => .error .malformedMultipart
  | some hb =>
    (formHeaderDict? ((splitAll crlf hb.1).drop 1)).map (fun hs => (hs, hb.2))

/-- The loop of FormData.doParse: every part overwrites self.headers and
self.formbody, so only the data of the last part survives. -/
def formLoop : List (List Nat) → FormData → Except ParseError FormData
  | [], st => .ok st
  | part :: rest, _ =>
    match parsePart? part with
    | .error e => .error e
    | .ok hb => formLoop rest ⟨some hb.1, some hb.2⟩

/-- FormData.doParse for a given boundary token. -/
def formDoParse (boundary data : List Nat) : Except ParseError FormData :=
  formLoop (formParts boundary data) ⟨none, none⟩

/-- The digit-accumulation loop of decimal parsing. -/
def natOfDigitsGo : List Nat → Nat → Option Nat
  | [], acc => some acc
  | d :: t, acc =>
    if 48 ≤ d ∧ d ≤ 57 then natOfDigitsGo t (acc * 10 + (d - 48)) else none

/-- A nonempty run of ASCII decimal digits as a number. -/
def natOfDigits? (l : List Nat) : Option Nat :=
  if l.isEmpty then none else natOfDigitsGo l 0

/-- Python int(s) on the shapes that reach it here: an optional sign
followed by at least one decimal digit; none models ValueError. -/
def intOfStr? : List Nat → Option Int
  | 43 :: t => (natOfDigits? t).map (fun n => (n : Int))
  | 45 :: t => (natOfDigits? t).map (fun n => -(n : Int))
  | t => (natOfDigits? t).map (fun n => (n : Int))

/-- Python int(sqrt(n)): math.sqrt raises ValueError (math domain error) on
a negative argument, modelled as none; on a nonnegative argument the floor
of the square root, which is what the float computation yields on every
argument small enough to be exactly representable (all arguments arising in
the claims). -/
def intSqrtPy? (n : Int) : Option Nat :=
  if n < 0 then none else some (Nat.sqrt n.toNat)

/-- The value of int(request.qparams[number-key]) in handle_is_prime, with
none modelling the three caught exceptions: TypeError when qparams is None,
KeyError when the key is absent, ValueError when the value is not a
number. -/
def getNumber? (qparams : Option (List (List Nat × List Nat))) : Option Int :=
  match qparams with
  | none => none
  | some d =>
    match dictLookup d (str "number") with
    | none => none
    | some v => intOfStr? v

/-- The response content of handle_is_prime: invalidParam is the 400
response with message Invalid parameter, result n b is the 200 response
whose JSON body carries number n and isPrime b. -/
inductive PrimeOutcome where
  | invalidParam
  | result (number : Int) (isPrime : Bool)
deriving DecidableEq

/-- The trial-division loop of handle_is_prime: result starts True and is
set to False whenever an i in range(2, m + 1) divides num; Python modulo
with a positive divisor agrees with Int.emod. -/
def trialDivision (num : Int) (m : Nat) : Bool :=
  (List.range' 2 (m + 1 - 2)).foldl
    (fun r i => if num % (Int.ofNat i) == 0 then false else r) true

/-- HTTPServer.handle_is_prime, abstracted to its observable outcome:
ok invalidParam is the 400 response, ok (result n b) the 200 response, and
error () the uncaught ValueError raised by math.sqrt on a negative number
(the sqrt call sits outside the try block, so the server sends no response
at all for that connection). -/
def handle_is_prime (qparams : Option (List (List Nat × List Nat))) :
    Except Unit PrimeOutcome :=
  match getNumber? qparams with
  | none => .ok .invalidParam
  | some num =>
    match intSqrtPy? num with
    | none => .error ()
    | some m => .ok (.result num (trialDivision num m))

deriving instance DecidableEq for Except

/-! ### Helper lemmas -/

theorem splitFirst?_eq_none_of_not_infix (sep : List Nat) :
    ∀ xs : List Nat, ¬ sep <:+: xs → splitFirst? sep xs = none := by
  intro xs
  induction xs with
  | nil =>
    intro h
    have hp : sep.isPrefixOf ([] : List Nat) = false := by
      cases hc : sep.isPrefixOf ([] : List Nat)
      · rfl
      · exact absurd ((List.isPrefixOf_iff_prefix.mp hc).isInfix) h
    simp [splitFirst?, hp]
  | cons a t ih =>
    intro h
    have hp : sep.isPrefixOf (a :: t) = false := by
      cases hc : sep.isPrefixOf (a :: t)
      · rfl
      · exact absurd ((List.isPrefixOf_iff_prefix.mp hc).isInfix) h
    have ht : ¬ sep <:+: t := fun hinf => h (List.infix_cons hinf)
    simp [splitFirst?, hp, ih ht]

theorem splitFirst?_single_eq_none (c : Nat) (xs : List Nat) (h : c ∉ xs) :
    splitFirst? [c] xs = none := by
  apply splitFirst?_eq_none_of_not_infix
  intro hinf
  exact h (hinf.sublist.subset (List.mem_singleton_self c))

theorem mem_of_mem_stripChar (c x : Nat) (xs : List Nat)
    (h : x ∈ stripChar c xs) : x ∈ xs := by
  unfold stripChar at h
  rw [List.mem_reverse] at h
  have h2 := (List.dropWhile_sublist _).subset h
  rw [List.mem_reverse] at h2
  exact (List.dropWhile_sublist _).subset h2

theorem dictLookup_cons_pos (p : List Nat × List Nat) (d : List (List Nat × List Nat))
    (k : List Nat) (hp : (p.1 == k) = true) :
    dictLookup (p :: d) k = some p.2 := by
  unfold dictLookup
  rw [@List.find?_cons_of_pos _ (fun q => q.1 == k) p d hp]
  rfl

theorem dictLookup_cons_neg (p : List Nat × List Nat) (d : List (List Nat × List Nat))
    (k : List Nat) (hp : (p.1 == k) = false) :
    dictLookup (p :: d) k = dictLookup d k := by
  unfold dictLookup
  rw [@List.find?_cons_of_neg _ (fun q => q.1 == k) p d
    (by show ¬ (p.1 == k) = true; rw [hp]; exact Bool.false_ne_true)]

theorem dictLookup_map_update_self (k v : List Nat) :
    ∀ d : List (List Nat × List Nat), d.any (fun p => p.1 == k) = true →
      dictLookup (d.map (fun p => if p.1 == k then (k, v) else p)) k = some v := by
  intro d
  induction d with
  | nil => intro h; simp at h
  | cons p t ih =>
    intro h
    simp only [List.map_cons]
    cases hp : (p.1 == k) with
    | true =>
      rw [if_pos rfl, dictLookup_cons_pos _ _ _ (beq_self_eq_true k)]
    | false =>
      rw [if_neg Bool.false_ne_true, dictLookup_cons_neg _ _ _ hp]
      have ht : t.any (fun q => q.1 == k) = true := by
        rw [List.any_cons, hp] at h; simpa using h
      exact ih ht

theorem dictLookup_append_self (k v : List Nat) :
    ∀ d : List (List Nat × List Nat), d.any (fun p => p.1 == k) = false →
      dictLookup (d ++ [(k, v)]) k = some v := by
  intro d
  induction d with
  | nil =>
    intro _
    rw [List.nil_append, dictLookup_cons_pos _ _ _ (beq_self_eq_true k)]
  | cons p t ih =>
    intro h
    rw [List.any_cons] at h
    have hp : (p.1 == k) = false := by
      cases hq : (p.1 == k)
      · rfl
      · rw [hq] at h; simp at h
    have ht : t.any (fun q => q.1 == k) = false := by
      rw [hp] at h; simpa using h
    rw [List.cons_append, dictLookup_cons_neg _ _ _ hp]
    exact ih ht

theorem dictLookup_insert_self (d : List (List Nat × List Nat)) (k v : List Nat) :
    dictLookup (dictInsert d k v) k = some v := by
  unfold dictInsert
  cases h : d.any (fun p => p.1 == k) with
  | false =>
    rw [if_neg Bool.false_ne_true]
    exact dictLookup_append_self k v d h
  | true =>
    rw [if_pos rfl]
    exact dictLookup_map_update_self k v d h

theorem dictLookup_map_update_ne (k v k2 : List Nat) (hne : (k == k2) = false) :
    ∀ d : List (List Nat × List Nat),
      dictLookup (d.map (fun p => if p.1 == k then (k, v) else p)) k2 = dictLookup d k2 := by
  intro d
  induction d with
  | nil => rfl
  | cons p t ih =>
    simp only [List.map_cons]
    cases hp : (p.1 == k) with
    | true =>
      have hpk : p.1 = k := eq_of_beq hp
      have hp2 : (p.1 == k2) = false := by rw [hpk]; exact hne
      rw [if_pos rfl, dictLookup_cons_neg _ _ _ hne, dictLookup_cons_neg _ _ _ hp2]
      exact ih
    | false =>
      rw [if_neg Bool.false_ne_true]
      cases hq : (p.1 == k2) with
      | true =>
        rw [dictLookup_cons_pos _ _ _ hq, dictLookup_cons_pos _ _ _ hq]
      | false =>
        rw [dictLookup_cons_neg _ _ _ hq, dictLookup_cons_neg _ _ _ hq]
        exact ih

theorem dictLookup_append_ne (k v k2 : List Nat) (hne : (k == k2) = false) :
    ∀ d : List (List Nat × List Nat),
      dictLookup (d ++ [(k, v)]) k2 = dictLookup d k2 := by
  intro d
  induction d with
  | nil =>
    rw [List.nil_append, dictLookup_cons_neg _ _ _ hne]
  | cons p t ih =>
    cases hq : (p.1 == k2) with
    | true =>
      rw [List.cons_append, dictLookup_cons_pos _ _ _ hq, dictLookup_cons_pos _ _ _ hq]
    | false =>
      rw [List.cons_append, dictLookup_cons_neg _ _ _ hq, dictLookup_cons_neg _ _ _ hq]
      exact ih

theorem dictLookup_insert_ne (d : List (List Nat × List Nat)) (k v k2 : List Nat)
    (hne : (k == k2) = false) :
    dictLookup (dictInsert d k v) k2 = dictLookup d k2 := by
  unfold dictInsert
  cases h : d.any (fun p => p.1 == k) with
  | false =>
    rw [if_neg Bool.false_ne_true]
    exact dictLookup_append_ne k v k2 hne d
  | true =>
    rw [if_pos rfl]
    exact dictLookup_map_update_ne k v k2 hne d

theorem dictLookup_foldl_insert (k : List Nat) :
    ∀ (ps d : List (List Nat × List Nat)),
      dictLookup (ps.foldl (fun d p => dictInsert d p.1 p.2) d) k =
        ((ps.filter (fun q => q.1 == k)).getLast?).elim (dictLookup d k) (fun q => some q.2) := by
  intro ps
  induction ps with
  | nil => intro d; simp
  | cons p t ih =>
    intro d
    rw [List.foldl_cons, ih, List.filter_cons]
    rcases hlast : (t.filter (fun q => q.1 == k)).getLast? with _ | q
    · have hfe : t.filter (fun q => q.1 == k) = [] := List.getLast?_eq_none_iff.mp hlast
      rw [hlast]
      cases hp : (p.1 == k) with
      | true =>
        have hpk : p.1 = k := eq_of_beq hp
        rw [if_pos rfl, hfe, List.getLast?_singleton]
        simp only [Option.elim]
        rw [hpk]
        exact dictLookup_insert_self d k p.2
      | false =>
        rw [if_neg Bool.false_ne_true, hlast]
        simp only [Option.elim]
        exact dictLookup_insert_ne d p.1 p.2 k hp
    · rw [hlast]
      have hne : t.filter (fun q => q.1 == k) ≠ [] := by
        intro h0; rw [h0, List.getLast?_nil] at hlast; cases hlast
      rcases hft : t.filter (fun q => q.1 == k) with _ | ⟨r, l⟩
      · exact absurd hft hne
      · rw [hft] at hlast
        cases hp : (p.1 == k) with
        | true =>
          rw [if_pos rfl, hft, List.getLast?_cons_cons, hlast]
          rfl
        | false =>
          rw [if_neg Bool.false_ne_true, hft, hlast]
          rfl

theorem dictOfPairs_lookup (ps : List (List Nat × List Nat)) (k : List Nat) :
    dictLookup (dictOfPairs ps) k =
      ((ps.filter (fun q => q.1 == k)).getLast?).map (fun q => q.2) := by
  rw [dictOfPairs, dictLookup_foldl_insert]
  rcases h : (ps.filter (fun q => q.1 == k)).getLast? with _ | q
  · rw [h]; rfl
  · rw [h]; rfl

theorem formLoop_last :
    ∀ (parts : List (List Nat)) (st st2 : FormData),
      formLoop parts st = .ok st2 → parts ≠ [] →
      ∃ last hs b, parts.getLast? = some last ∧ parsePart? last = .ok (hs, b) ∧
        st2 = ⟨some hs, some b⟩ := by
  intro parts
  induction parts with
  | nil => intro st st2 _ hne; exact absurd rfl hne
  | cons part rest ih =>
    intro st st2 h _
    cases hp : parsePart? part with
    | error e =>
      simp only [formLoop, hp] at h
      exact Except.noConfusion h
    | ok hb =>
      simp only [formLoop, hp] at h
      cases rest with
      | nil =>
        simp only [formLoop, Except.ok.injEq] at h
        exact ⟨part, hb.1, hb.2, rfl, by rw [hp], h.symm⟩
      | cons q ts =>
        obtain ⟨last, hs, b, hl, hpp, hst⟩ := ih _ st2 h (by simp)
        exact ⟨last, hs, b, by rw [List.getLast?_cons_cons]; exact hl, hpp, hst⟩

/-! ### Claim theorems -/

/-- C1: parsing the byte sequence GET /isPrime?number=17 HTTP/1.1 CRLF
Host: x CRLF CRLF yields a request whose path is isPrime, whose query
mapping sends number to 17, whose version is 1.1, whose header mapping
sends Host to x, and whose body is empty. -/
theorem c1_parse_get_isPrime :
    doParse (str "GET /isPrime?number=17 HTTP/1.1\r\nHost: x\r\n\r\n") =
      .ok { method := str "GET", endpoint := str "isPrime",
            qparams := some [(str "number", str "17")], http_version := str "1.1",
            headers := [(str "Host", str "x")], body := [] } := by decide

/-- C2 counterexample: for the RFC-canonical one-part multipart body with
boundary XYZ and payload hello, where a CRLF precedes the closing boundary
marker, the decoder keeps that CRLF in the payload: the retained payload is
the 7 bytes hello-CR-LF, not the 5 bytes hello, refuting the claim that the
payload equals hello exactly with no extra bytes. -/
theorem c2_counterexample :
    formDoParse (str "XYZ")
        (str "--XYZ\r\nContent-Disposition: form-data; name=\"file\"; filename=\"a.txt\"\r\n\r\nhello\r\n--XYZ--") =
      .ok { headers := some [(str "Content-Disposition",
              str "form-data; name=\"file\"; filename=\"a.txt\"")],
            formbody := some (str "hello\r\n") } ∧
    (formParts (str "XYZ")
        (str "--XYZ\r\nContent-Disposition: form-data; name=\"file\"; filename=\"a.txt\"\r\n\r\nhello\r\n--XYZ--")).length = 1 ∧
    str "hello\r\n" ≠ str "hello" := by decide

/-- C2 amended: the one-part body with boundary XYZ decodes to exactly one
part whose payload is every byte strictly between the blank line of the
part and the next boundary marker: for the RFC-canonical body the payload
is hello followed by CRLF (7 bytes), and it equals exactly the 5 bytes
hello only when the closing boundary marker immediately follows the
payload with no intervening CRLF; the header mapping is decoded in both
cases and the payload is handled as raw bytes. -/
theorem c2_multipart_payload_amended :
    (formDoParse (str "XYZ")
        (str "--XYZ\r\nContent-Disposition: form-data; name=\"file\"; filename=\"a.txt\"\r\n\r\nhello\r\n--XYZ--") =
      .ok { headers := some [(str "Content-Disposition",
              str "form-data; name=\"file\"; filename=\"a.txt\"")],
            formbody := some (str "hello\r\n") }) ∧
    (formDoParse (str "XYZ")
        (str "--XYZ\r\nContent-Disposition: form-data; name=\"file\"; filename=\"a.txt\"\r\n\r\nhello--XYZ--") =
      .ok { headers := some [(str "Content-Disposition",
              str "form-data; name=\"file\"; filename=\"a.txt\"")],
            formbody := some (str "hello") }) ∧
    (formParts (str "XYZ")
        (str "--XYZ\r\nContent-Disposition: form-data; name=\"file\"; filename=\"a.txt\"\r\n\r\nhello--XYZ--")).length = 1 := by
  decide

/-- C3 counterexample: for the request line GET /foo/?x=1 HTTP/1.1 the
source strips slashes from the whole URI token before splitting on the
question mark, so the stored path is foo/ with its trailing slash kept,
while the claim (strip the path component of the URI) demands foo. -/
theorem c3_counterexample :
    doParse (str "GET /foo/?x=1 HTTP/1.1\r\nHost: x\r\n\r\n") =
      .ok { method := str "GET", endpoint := str "foo/",
            qparams := some [(str "x", str "1")], http_version := str "1.1",
            headers := [(str "Host", str "x")], body := [] } ∧
    specPath (str "/foo/?x=1") = str "foo" ∧
    str "foo/" ≠ str "foo" := by decide

/-- C3 amended: the stored path is the whole URI token with leading and
trailing slashes stripped first and then cut at the first question mark of
the stripped token; when the URI token carries no question mark this
coincides with the claimed path component rule. -/
theorem c3_path_amended (data head body headText w : List Nat) (r : HTTPRequest)
    (h1 : splitFirst? crlfcrlf data = some (head, body))
    (h2 : utf8Decode? head = some headText)
    (h3 : (wordsOf headText).find? (fun v => [47].isPrefixOf v) = some w)
    (h5 : doParse data = .ok r) :
    r.endpoint = (match splitFirst? [63] (stripChar 47 w) with
                  | none => stripChar 47 w
                  | some pq => pq.1) ∧
    (63 ∉ w → r.endpoint = specPath w) := by
  rcases hq : splitFirst? [63] (stripChar 47 w) with _ | pq
  · simp only [doParse, h1, h2, parseHead, h3, hq] at h5
    cases hh : headerDict? (headerLines headText) with
    | error e =>
      rw [hh] at h5
      simp only [Except.map] at h5
      exact Except.noConfusion h5
    | ok hs =>
      rw [hh] at h5
      simp only [Except.map, Except.ok.injEq] at h5
      subst h5
      constructor
      · rfl
      · intro h4
        have h6 : splitFirst? [63] w = none :=
          splitFirst?_single_eq_none 63 w h4
        simp [specPath, h6]
  · simp only [doParse, h1, h2, parseHead, h3, hq] at h5
    cases hqd : queryDict? pq.2 with
    | error e =>
      rw [hqd] at h5
      exact Except.noConfusion h5
    | ok qd =>
      rw [hqd] at h5
      cases hh : headerDict? (headerLines headText) with
      | error e =>
        rw [hh] at h5
        simp only [Except.map] at h5
        exact Except.noConfusion h5
      | ok hs =>
        rw [hh] at h5
        simp only [Except.map, Except.ok.injEq] at h5
        subst h5
        constructor
        · rfl
        · intro h4
          have h6 : splitFirst? [63] (stripChar 47 w) = none :=
            splitFirst?_single_eq_none 63 _
              (fun hm => h4 (mem_of_mem_stripChar 47 63 w hm))
          rw [h6] at hq
          exact Option.noConfusion hq

/-- C3 amended witness at the request GET /foo/ HTTP/1.1 with one header. -/
theorem c3_path_amended_witness :
    (HTTPRequest.mk (str "GET") (str "foo") none (str "1.1")
        [(str "Host", str "x")] []).endpoint =
      (match splitFirst? [63] (stripChar 47 (str "/foo/")) with
        | none => stripChar 47 (str "/foo/")
        | some pq => pq.1) ∧
    (63 ∉ str "/foo/" →
      (HTTPRequest.mk (str "GET") (str "foo") none (str "1.1")
          [(str "Host", str "x")] []).endpoint = specPath (str "/foo/")) :=
  c3_path_amended (str "GET /foo/ HTTP/1.1\r\nHost: x\r\n\r\n")
    (str "GET /foo/ HTTP/1.1\r\nHost: x") [] (str "GET /foo/ HTTP/1.1\r\nHost: x")
    (str "/foo/")
    (HTTPRequest.mk (str "GET") (str "foo") none (str "1.1") [(str "Host", str "x")] [])
    (by decide) (by decide) (by decide) (by decide)

/-- C4 counterexample: a multipart part whose single header line is
X: a: b makes FormData.doParse fail, because the source splits multipart
header lines on every occurrence of colon-space and the three resulting
pieces do not unpack into a key/value pair; the request parser by contrast
splits the same line on the first occurrence only, keeping the second
colon-space inside the value. -/
theorem c4_counterexample :
    formDoParse (str "XYZ") (str "--XYZ\r\nX: a: b\r\n\r\nhello\r\n--XYZ--") =
      .error .malformedHeaderLine ∧
    splitFirst? colonSpace (str "X: a: b") = some (str "X", str "a: b") := by decide

/-- C4 amended: a multipart header line is split on every occurrence of
colon-space, not on the first one as in the request parser: a line with
exactly one occurrence decodes into its key/value pair, while a line whose
split has any other number of pieces, in particular one whose value itself
contains colon-space, is a fatal parse error. -/
theorem c4_multipart_header_split_amended (line : List Nat) :
    (∀ k v kd vd : List Nat, splitAll colonSpace line = [k, v] →
        utf8Decode? k = some kd → utf8Decode? v = some vd →
        formHeaderPairs? [line] = .ok [(kd, vd)]) ∧
    ((splitAll colonSpace line).length ≠ 2 →
        formHeaderPairs? [line] = .error .malformedHeaderLine) := by
  constructor
  · intro k v kd vd hsp hk hv
    simp [formHeaderPairs?, hsp, hk, hv, Except.map]
  · intro hlen
    rcases hsp : splitAll colonSpace line with _ | ⟨a, _ | ⟨b, _ | ⟨c, t⟩⟩⟩
    · simp [formHeaderPairs?, hsp]
    · simp [formHeaderPairs?, hsp]
    · rw [hsp] at hlen; simp at hlen
    · simp [formHeaderPairs?, hsp]

/-- C4 amended witness: the line X: a decodes to the pair (X, a), and the
line X: a: b is a fatal error. -/
theorem c4_multipart_header_split_amended_witness :
    formHeaderPairs? [str "X: a"] = .ok [(str "X", str "a")] ∧
    formHeaderPairs? [str "X: a: b"] = .error .malformedHeaderLine :=
  ⟨(c4_multipart_header_split_amended (str "X: a")).1
      (str "X") (str "a") (str "X") (str "a") (by decide) (by decide) (by decide),
    (c4_multipart_header_split_amended (str "X: a: b")).2 (by decide)⟩

/-- C5: when the multipart body contains more than one part, the decoder
output retains only the last part: its header mapping and payload are
those of the last candidate part, every earlier part being overwritten. -/
theorem c5_last_part_wins (boundary data : List Nat) (fd : FormData)
    (h : formDoParse boundary data = .ok fd)
    (h2 : 2 ≤ (formParts boundary data).length) :
    ∃ last hs b, (formParts boundary data).getLast? = some last ∧
      parsePart? last = .ok (hs, b) ∧ fd.headers = some hs ∧ fd.formbody = some b := by
  have hne : formParts boundary data ≠ [] := by
    intro h0
    rw [h0] at h2
    simp at h2
  obtain ⟨last, hs, b, h1, hpp, hst⟩ := formLoop_last _ _ _ h hne
  exact ⟨last, hs, b, h1, hpp, by rw [hst], by rw [hst]⟩

/-- C5 witness on a two-part body: the decoder output is the header mapping
and payload of the second part. -/
theorem c5_last_part_wins_witness :
    ∃ last hs b,
      (formParts (str "XYZ")
        (str "--XYZ\r\nA: 1\r\n\r\none\r\n--XYZ\r\nB: 2\r\n\r\ntwo\r\n--XYZ--")).getLast? = some last ∧
      parsePart? last = .ok (hs, b) ∧
      (FormData.mk (some [(str "B", str "2")]) (some (str "two\r\n"))).headers = some hs ∧
      (FormData.mk (some [(str "B", str "2")]) (some (str "two\r\n"))).formbody = some b :=
  c5_last_part_wins (str "XYZ")
    (str "--XYZ\r\nA: 1\r\n\r\none\r\n--XYZ\r\nB: 2\r\n\r\ntwo\r\n--XYZ--")
    (FormData.mk (some [(str "B", str "2")]) (some (str "two\r\n")))
    (by decide) (by decide)

/-- C6: every input byte sequence that nowhere contains the blank-line
delimiter CRLFCRLF makes the request parser fail with the framing error
instead of producing a parsed request. -/
theorem c6_missing_delimiter_fails (data : List Nat)
    (h : ¬ crlfcrlf <:+: data) :
    doParse data = .error .framingError := by
  simp [doParse, splitFirst?_eq_none_of_not_infix crlfcrlf data h]

/-- C6 witness on a buffer holding a request line but no blank line. -/
theorem c6_missing_delimiter_fails_witness :
    (¬ crlfcrlf <:+: str "GET / HTTP/1.1\r\nHost: x") ∧
    doParse (str "GET / HTTP/1.1\r\nHost: x") = .error .framingError :=
  ⟨by decide, c6_missing_delimiter_fails (str "GET / HTTP/1.1\r\nHost: x") (by decide)⟩

/-- C7: whenever the request line, split on spaces, holds no token that
begins with a slash, the request parser fails with the request-line error
rather than returning a parsed request. -/
theorem c7_no_slash_token_fails (data head body headText : List Nat)
    (h1 : splitFirst? crlfcrlf data = some (head, body))
    (h2 : utf8Decode? head = some headText)
    (h3 : ∀ w ∈ wordsOf headText, ¬ [47] <+: w) :
    doParse data = .error .malformedRequestLine := by
  have hf : (wordsOf headText).find? (fun v => [47].isPrefixOf v) = none := by
    rw [List.find?_eq_none]
    intro w hw
    rw [List.isPrefixOf_iff_prefix]
    exact h3 w hw
  simp [doParse, h1, h2, parseHead, hf]

/-- C7 witness on the request GET HTTP/1.1 with no slash token. -/
theorem c7_no_slash_token_fails_witness :
    doParse (str "GET HTTP/1.1\r\n\r\n") = .error .malformedRequestLine :=
  c7_no_slash_token_fails (str "GET HTTP/1.1\r\n\r\n") (str "GET HTTP/1.1") []
    (str "GET HTTP/1.1") (by decide) (by decide) (by decide)

/-- C8: the query string a=1&b=2&a=3 parses to the mapping sending a to 3
and b to 2, and in general, whenever a key occurs more than once among the
pairs of a query string, the resulting mapping holds the value of the last
occurrence of that key. -/
theorem c8_query_last_wins :
    queryDict? (str "a=1&b=2&a=3") =
      .ok [(str "a", str "3"), (str "b", str "2")] ∧
    ∀ (rest : List Nat) (ps : List (List Nat × List Nat)) (k : List Nat),
      queryPairs? rest = .ok ps →
      2 ≤ (ps.filter (fun q => q.1 == k)).length →
      dictLookup (dictOfPairs ps) k =
        ((ps.filter (fun q => q.1 == k)).getLast?).map (fun q => q.2) := by
  refine ⟨by decide, ?_⟩
  intro rest ps k _ _
  exact dictOfPairs_lookup ps k

/-- C8 witness: instantiating the last-wins law at the pairs of the query
string a=1&b=2&a=3 and the duplicated key a. -/
theorem c8_query_last_wins_witness :
    dictLookup (dictOfPairs [(str "a", str "1"), (str "b", str "2"), (str "a", str "3")])
        (str "a") =
      (([(str "a", str "1"), (str "b", str "2"), (str "a", str "3")].filter
          (fun q => q.1 == str "a")).getLast?).map (fun q => q.2) :=
  c8_query_last_wins.2 (str "a=1&b=2&a=3")
    [(str "a", str "1"), (str "b", str "2"), (str "a", str "3")] (str "a")
    (by decide) (by decide)

/-- C9: for every successfully parsed request whose URI token holds no
question mark, the query-parameter field is the absent value none, which is
distinct from a present-but-empty mapping. -/
theorem c9_no_query_gives_none (data head body headText w : List Nat) (r : HTTPRequest)
    (h1 : splitFirst? crlfcrlf data = some (head, body))
    (h2 : utf8Decode? head = some headText)
    (h3 : (wordsOf headText).find? (fun v => [47].isPrefixOf v) = some w)
    (h4 : 63 ∉ w)
    (h5 : doParse data = .ok r) :
    r.qparams = none := by
  have h6 : splitFirst? [63] (stripChar 47 w) = none :=
    splitFirst?_single_eq_none 63 _ (fun hm => h4 (mem_of_mem_stripChar 47 63 w hm))
  simp only [doParse, h1, h2, parseHead, h3, h6] at h5
  cases hh : headerDict? (headerLines headText) with
  | error e =>
    rw [hh] at h5
    simp only [Except.map] at h5
    exact Except.noConfusion h5
  | ok hs =>
    rw [hh] at h5
    simp only [Except.map, Except.ok.injEq] at h5
    subst h5
    rfl

/-- C9 witness on the request GET /foo HTTP/1.1 with one header. -/
theorem c9_no_query_gives_none_witness :
    (HTTPRequest.mk (str "GET") (str "foo") none (str "1.1")
        [(str "Host", str "x")] []).qparams = none :=
  c9_no_query_gives_none (str "GET /foo HTTP/1.1\r\nHost: x\r\n\r\n")
    (str "GET /foo HTTP/1.1\r\nHost: x") [] (str "GET /foo HTTP/1.1\r\nHost: x")
    (str "/foo")
    (HTTPRequest.mk (str "GET") (str "foo") none (str "1.1") [(str "Host", str "x")] [])
    (by decide) (by decide) (by decide) (by decide) (by decide)

/-- C10 counterexample: invoked with query parameter number equal to the
negative integer minus one, the handler does not produce a 200 response
reporting isPrime true: math.sqrt raises an uncaught ValueError outside the
try block, so no response is produced at all, refuting the claim for
negative integers. -/
theorem c10_counterexample :
    handle_is_prime (some [(str "number", str "-1")]) = .error () := by decide

/-- C10 amended: for every integer n with 0 ≤ n < 2 the handler answers
with the 200 response reporting isPrime true, the trial-division range
being empty; for negative n the claim fails as the sqrt call raises. -/
theorem c10_small_nonneg_amended (n : Int) (s : List Nat)
    (hs : intOfStr? s = some n) (h0 : 0 ≤ n) (h2 : n < 2) :
    handle_is_prime (some [(str "number", s)]) = .ok (.result n true) := by
  have hlook := dictLookup_cons_pos (str "number", s) [] (str "number")
    (beq_self_eq_true (str "number"))
  have hnn : ¬ n < 0 := by omega
  have hm : Nat.sqrt n.toNat + 1 - 2 = 0 := by
    have hlt : n.toNat < 2 := by omega
    have hle := Nat.sqrt_le_self n.toNat
    omega
  have htd : trialDivision n (Nat.sqrt n.toNat) = true := by
    unfold trialDivision
    rw [hm]
    rfl
  simp [handle_is_prime, getNumber?, hlook, hs, intSqrtPy?, hnn, htd]

/-- C10 amended witness at n equal one. -/
theorem c10_small_nonneg_amended_witness :
    handle_is_prime (some [(str "number", str "1")]) = .ok (.result 1 true) :=
  c10_small_nonneg_amended 1 (str "1") (by decide) (by decide) (by decide)
